import Mathlib

/-
  Shallow embedding of `src/ayay.js`: a workspace orchestrator that commits
  and pushes changes across a root repository and nested repositories under
  `packages/`.  External collaborators (the git library and the
  text-generation HTTP endpoint) are modelled as oracles; every operation
  performed against them is recorded in an event trace, and a thrown
  exception is modelled as an `Except.error` result of the oracle.
-/

namespace Ayay

/-- One entry of the diff summary (`summary.files` in the source). -/
structure FileChange where
  file : String
  insertions : Nat
  deletions : Nat
deriving DecidableEq, Repr

/-- Result of `git.diffSummary()`. -/
structure DiffSummary where
  files : List FileChange
deriving DecidableEq, Repr

/-- Shape of the text-generation response body as consumed by
`generateCommitMessage`: either something on which `data.content[0].text`
blows up (`malformed`), or a list of content segments, each carrying its
text. -/
inductive Body where
  | malformed
  | content (segments : List String)
deriving DecidableEq, Repr

/-- Outcome of the `fetch` call to the text-generation endpoint: a network
failure (the promise rejects), or a response with an HTTP status code and a
body. -/
inductive ApiResult where
  | networkError (message : String)
  | response (status : Nat) (body : Body)
deriving DecidableEq, Repr

/-- Observable operations against the git library and the network,
recorded in program order. -/
inductive Event where
  | status (repo : String)
  | diff (repo : String)
  | diffSummary (repo : String)
  | add (repo : String) (pathspec : String)
  | fetch (diff : String)
  | commit (repo : String) (message : String)
  | push (repo : String) (remote : String) (branch : String)
  | checkout (repo : String) (branch : String)
  | pull (repo : String) (remote : String) (branch : String)
  | raw (repo : String) (args : List String)
deriving DecidableEq, Repr

/-- Behaviour oracle for the git instance rooted at one repository path.
`status` returns the value of `status.isClean()`; an `Except.error` models
the underlying call throwing. -/
structure RepoGit where
  status : Except String Bool
  diff : Except String String
  diffSummary : Except String DiffSummary
  add : String → Except String Unit
  commit : String → Except String Unit
  push : String → String → Except String Unit
  checkout : String → Except String Unit
  pull : String → String → Except String Unit
  raw : List String → Except String String

/-- Per-repository processing outcome: the terminal state of the
per-repository flow (skipped because clean, fully committed and pushed, or
failed with the logged error message). -/
inductive Outcome where
  | skippedClean
  | success
  | failed (message : String)
deriving DecidableEq, Repr

/-- JS whitespace test used by `trim()` and the `\s` regex class
(restricted to the whitespace characters that occur in git output). -/
def isSpace (c : Char) : Bool :=
  c == ' ' || c == '\t' || c == '\n' || c == '\r'

/-- Drop leading and trailing whitespace from a character list. -/
def trimChars (cs : List Char) : List Char :=
  ((cs.dropWhile isSpace).reverse.dropWhile isSpace).reverse

/-- JS `String.prototype.trim`. -/
def jsTrim (s : String) : String := String.mk (trimChars s.data)

/-- Split a character list at every character satisfying `p`
(JS `String.prototype.split`): separators are consumed and empty fields
are kept. -/
def splitAux (p : Char → Bool) : List Char → List (List Char)
  | [] => [[]]
  | c :: rest =>
    let r := splitAux p rest
    if p c then [] :: r
    else
      match r with
      | [] => [[c]]
      | h :: t => (c :: h) :: t

/-- The fixed fallback commit message returned when generation fails. -/
def fallbackMessage : String := "chore: update submodule changes"

/-- `generateCommitMessage(diff)`: performs one `fetch` of the diff, throws
on a non-2xx response (`response.ok` is false outside 200..299), reads
`data.content[0].text.trim()`, and maps any error raised along the way to
the fixed fallback message.  Returns the message together with the trace
of the network call. -/
def generateCommitMessage (api : String → ApiResult) (diff : String) :
    String × List Event :=
  let result :=
    match api diff with
    | .networkError _e => fallbackMessage
    | .response status body =>
      if status < 200 || 299 < status then fallbackMessage
      else
        match body with
        | .malformed => fallbackMessage
        | .content [] => fallbackMessage
        | .content (t :: _) => jsTrim t
  (result, [Event.fetch diff])

/-- `processSubmodule(submodulePath)`: status check with early return on a
clean tree, then diff, diff summary, stage-all, message generation, commit
(whose failure is logged and re-thrown), and push to `origin main`; the
outer `try`/`catch` converts any thrown error into a logged failed
outcome. -/
def processSubmodule (submodulePath : String) (g : RepoGit)
    (api : String → ApiResult) : Outcome × List Event :=
  match g.status with
  | .error e => (.failed e, [Event.status submodulePath])
  | .ok true => (.skippedClean, [Event.status submodulePath])
  | .ok false =>
    match g.diff with
    | .error e => (.failed e, [Event.status submodulePath, Event.diff submodulePath])
    | .ok diff =>
      match g.diffSummary with
      | .error e =>
        (.failed e, [Event.status submodulePath, Event.diff submodulePath,
          Event.diffSummary submodulePath])
      | .ok _summary =>
        match g.add "." with
        | .error e =>
          (.failed e, [Event.status submodulePath, Event.diff submodulePath,
            Event.diffSummary submodulePath, Event.add submodulePath "."])
        | .ok _ =>
          let gen := generateCommitMessage api diff
          let commitMessage := gen.1
          let pre := [Event.status submodulePath, Event.diff submodulePath,
            Event.diffSummary submodulePath, Event.add submodulePath "."] ++ gen.2
          match g.commit commitMessage with
          | .error e => (.failed e, pre ++ [Event.commit submodulePath commitMessage])
          | .ok _ =>
            match g.push "origin" "main" with
            | .error e =>
              (.failed e, pre ++ [Event.commit submodulePath commitMessage,
                Event.push submodulePath "origin" "main"])
            | .ok _ =>
              (.success, pre ++ [Event.commit submodulePath commitMessage,
                Event.push submodulePath "origin" "main"])

/-- `path.join` as used on the repository paths of this program. -/
def pathJoin (a b : String) : String := a ++ "/" ++ b

/-- Parsing of `git submodule status` output in `processRepository`:
split on newlines, keep lines whose trim is non-empty, and extract the
second whitespace-separated token (`/^\S+\s+(\S+)/`, capture group 1),
dropping lines without a match. -/
def parseSubmoduleStatus (rawOut : String) : List String :=
  ((splitAux (fun c => c == '\n') rawOut.data).filter
      (fun line => !(trimChars line).isEmpty)).filterMap
    (fun line =>
      match (splitAux isSpace (trimChars line)).filter (fun w => !w.isEmpty) with
      | _ :: w :: _ => some (String.mk w)
      | _ => none)

/-- The per-submodule body of the reference-refresh loop in
`processRepository`: check out `main`, then (only if checkout succeeded)
pull `origin main`; any error is caught and logged inside this body, so
only the trace of attempted operations is observable. -/
def refreshSubmodule (repoPath submodulePath : String)
    (gsub : String → RepoGit) : List Event :=
  let subRepo := pathJoin repoPath submodulePath
  match (gsub subRepo).checkout "main" with
  | .error _e => [Event.checkout subRepo "main"]
  | .ok _ => [Event.checkout subRepo "main", Event.pull subRepo "origin" "main"]

/-- `processRepository(repoPath, isSubmodule)`: when `isSubmodule` is
false, first queries `git submodule status`, parses the submodule paths
and refreshes each one (errors per submodule are swallowed); then runs the
same status / diff / summary / stage / generate / commit / push pipeline
as `processSubmodule`, with the same outer `try`/`catch`. -/
def processRepository (repoPath : String) (isSubmodule : Bool) (g : RepoGit)
    (gsub : String → RepoGit) (api : String → ApiResult) :
    Outcome × List Event :=
  let pipeline : List Event → Outcome × List Event := fun pre =>
    match g.status with
    | .error e => (.failed e, pre ++ [Event.status repoPath])
    | .ok true => (.skippedClean, pre ++ [Event.status repoPath])
    | .ok false =>
      match g.diff with
      | .error e => (.failed e, pre ++ [Event.status repoPath, Event.diff repoPath])
      | .ok diff =>
        match g.diffSummary with
        | .error e =>
          (.failed e, pre ++ [Event.status repoPath, Event.diff repoPath,
            Event.diffSummary repoPath])
        | .ok _summary =>
          match g.add "." with
          | .error e =>
            (.failed e, pre ++ [Event.status repoPath, Event.diff repoPath,
              Event.diffSummary repoPath, Event.add repoPath "."])
          | .ok _ =>
            let gen := generateCommitMessage api diff
            let commitMessage := gen.1
            let mid := [Event.status repoPath, Event.diff repoPath,
              Event.diffSummary repoPath, Event.add repoPath "."] ++ gen.2
            match g.commit commitMessage with
            | .error e => (.failed e, pre ++ mid ++ [Event.commit repoPath commitMessage])
            | .ok _ =>
              match g.push "origin" "main" with
              | .error e =>
                (.failed e, pre ++ mid ++ [Event.commit repoPath commitMessage,
                  Event.push repoPath "origin" "main"])
              | .ok _ =>
                (.success, pre ++ mid ++ [Event.commit repoPath commitMessage,
                  Event.push repoPath "origin" "main"])
  if isSubmodule then
    pipeline []
  else
    match g.raw ["submodule", "status"] with
    | .error e => (.failed e, [Event.raw repoPath ["submodule", "status"]])
    | .ok rawOut =>
      pipeline (Event.raw repoPath ["submodule", "status"] ::
        (parseSubmoduleStatus rawOut).flatMap
          (fun sp => refreshSubmodule repoPath sp gsub))

/-- Filesystem oracle for `main`: the current working directory, whether
`packages` exists, the entries of `readdirSync(packagesDir)`, and the
`statSync(dir).isDirectory()` test. -/
structure World where
  cwd : String
  packagesExists : Bool
  entries : List String
  isDir : String → Bool

/-- The nested-repository locations discovered by `main`: each directory
entry of `packages/`, joined to the packages path and filtered to
directories. -/
def mainSubmodules (w : World) : List String :=
  (w.entries.map (fun name => pathJoin (pathJoin w.cwd "packages") name)).filter w.isDir

/-- `main()`: exits with code 1 when `packages/` is missing; otherwise
awaits `Promise.all` over `processSubmodule` for every nested repository,
then awaits `processRepository(rootDir, false)`, and ends with exit code
0.  The result is the exit code and the full event trace. -/
def main (w : World) (g : String → RepoGit) (api : String → ApiResult) :
    Nat × List Event :=
  if !w.packagesExists then
    (1, [])
  else
    let submodules := mainSubmodules w
    let subTraces := submodules.map (fun p => (processSubmodule p (g p) api).2)
    let rootRun := processRepository w.cwd false (g w.cwd) g api
    (0, subTraces.flatten ++ rootRun.2)

/-- Events forbidden after a clean status check: diff computation,
staging, the message-generation network call, commit, and push. -/
def pipelineEffect : Event → Bool
  | .diff _ => true
  | .add _ _ => true
  | .fetch _ => true
  | .commit _ _ => true
  | .push _ _ _ => true
  | _ => false

/-- A repository behaviour on which the whole pipeline succeeds: dirty
status, and every subsequent git operation returns without throwing. -/
def repoAllOk (g : RepoGit) : Prop :=
  g.status = Except.ok false ∧
  (∃ d, g.diff = Except.ok d) ∧
  (∃ s, g.diffSummary = Except.ok s) ∧
  g.add "." = Except.ok () ∧
  (∀ m, g.commit m = Except.ok ()) ∧
  g.push "origin" "main" = Except.ok ()

/-- The three failure modes of the text-generation call as observed by
`generateCommitMessage`: network failure, non-2xx status, or a body on
which extracting the first segment's text throws. -/
def apiCallFailed : ApiResult → Prop
  | .networkError _ => True
  | .response status body =>
    status < 200 ∨ 299 < status ∨ body = .malformed ∨ body = .content []

/-- Concrete text-generation oracle answering every diff with a 200
response carrying one content segment. -/
def apiW : String → ApiResult :=
  fun _ => ApiResult.response 200 (Body.content ["feat: update config"])

/-- Concrete oracle simulating a network failure. -/
def apiNet : String → ApiResult := fun _ => ApiResult.networkError "ECONNREFUSED"

/-- Concrete oracle answering with a non-2xx status. -/
def apiBad : String → ApiResult := fun _ => ApiResult.response 500 (Body.content ["x"])

/-- Concrete oracle answering 200 with a malformed body. -/
def apiMal : String → ApiResult := fun _ => ApiResult.response 200 Body.malformed

/-- Concrete oracle answering 200 with a whitespace-only first segment. -/
def apiBlank : String → ApiResult := fun _ => ApiResult.response 200 (Body.content ["   "])

/-- A fully successful repository behaviour on a dirty tree. -/
def gGood : RepoGit where
  status := .ok false
  diff := .ok "diff-a"
  diffSummary := .ok ⟨[⟨"f.txt", 1, 0⟩]⟩
  add := fun _ => .ok ()
  commit := fun _ => .ok ()
  push := fun _ _ => .ok ()
  checkout := fun _ => .ok ()
  pull := fun _ _ => .ok ()
  raw := fun _ => .ok " abc123 packages/a (heads/main)\n abc124 packages/b (heads/main)"

/-- Like `gGood` but the commit operation throws. -/
def gBadCommit : RepoGit := { gGood with commit := fun _ => .error "commit boom" }

/-- Like `gGood` but the push operation throws. -/
def gBadPush : RepoGit := { gGood with push := fun _ _ => .error "push boom" }

/-- Like `gGood` but the working tree is clean. -/
def gClean : RepoGit := { gGood with status := .ok true }

/-- Like `gGood` but checking out `main` throws. -/
def gBadCheckout : RepoGit := { gGood with checkout := fun _ => .error "checkout boom" }

/-- Workspace git oracle: nested repository `b` has a throwing commit,
every other location behaves like `gGood`. -/
def gWorkspace : String → RepoGit :=
  fun p => if p = pathJoin (pathJoin "/r" "packages") "b" then gBadCommit else gGood

/-- Workspace git oracle where the registered submodule at
`packages/b` fails its checkout during the reference refresh. -/
def gsubW : String → RepoGit :=
  fun p => if p = pathJoin "/r" "packages/b" then gBadCheckout else gGood

/-- Workspace with three nested repositories `a`, `b`, `c`. -/
def wThree : World where
  cwd := "/r"
  packagesExists := true
  entries := ["a", "b", "c"]
  isDir := fun _ => true

/-- Workspace whose `packages` directory is missing. -/
def wNoPkg : World where
  cwd := "/r"
  packagesExists := false
  entries := []
  isDir := fun _ => false

/-- The network-call trace of `generateCommitMessage` is always exactly
one fetch of the diff. -/
lemma generateCommitMessage_events (api : String → ApiResult) (d : String) :
    (generateCommitMessage api d).2 = [Event.fetch d] := rfl

/-- Every event emitted by the per-submodule refresh body is a checkout
or a pull, never a pipeline effect. -/
lemma refreshSubmodule_effects (r sp : String) (gsub : String → RepoGit) :
    ∀ e ∈ refreshSubmodule r sp gsub, pipelineEffect e = false := by
  intro e he
  simp only [refreshSubmodule] at he
  cases hc : (gsub (pathJoin r sp)).checkout "main" with
  | error msg =>
    rw [hc] at he
    simp at he
    subst he
    rfl
  | ok u =>
    rw [hc] at he
    simp at he
    rcases he with he | he <;> subst he <;> rfl

/-- The refresh body always attempts the checkout of `main`. -/
lemma checkout_mem_refreshSubmodule (r sp : String) (gsub : String → RepoGit) :
    Event.checkout (pathJoin r sp) "main" ∈ refreshSubmodule r sp gsub := by
  simp only [refreshSubmodule]
  cases (gsub (pathJoin r sp)).checkout "main" <;> simp

/-- When the checkout succeeds, the refresh body then attempts the pull
from `origin/main`. -/
lemma pull_mem_refreshSubmodule (r sp : String) (gsub : String → RepoGit)
    (h : (gsub (pathJoin r sp)).checkout "main" = Except.ok ()) :
    Event.pull (pathJoin r sp) "origin" "main" ∈ refreshSubmodule r sp gsub := by
  simp only [refreshSubmodule, h]
  simp

/-- Trace and outcome of `processSubmodule` when every pipeline step
succeeds on a dirty tree. -/
lemma processSubmodule_allOk_eq (p : String) (g : RepoGit)
    (api : String → ApiResult) (d : String) (s : DiffSummary)
    (hst : g.status = Except.ok false) (hd : g.diff = Except.ok d)
    (hsum : g.diffSummary = Except.ok s) (hadd : g.add "." = Except.ok ())
    (hc : g.commit (generateCommitMessage api d).1 = Except.ok ())
    (hp : g.push "origin" "main" = Except.ok ()) :
    processSubmodule p g api =
      (.success, [Event.status p, Event.diff p, Event.diffSummary p, Event.add p ".",
        Event.fetch d, Event.commit p (generateCommitMessage api d).1,
        Event.push p "origin" "main"]) := by
  simp [processSubmodule, hst, hd, hsum, hadd, hc, hp, generateCommitMessage_events]

/-- When the submodule-status query succeeds, processing the root equals
running the refresh phase (one raw query plus the per-submodule refresh
bodies) and then exactly the `processSubmodule` pipeline: same outcome,
and the pipeline trace appended after the refresh trace. -/
lemma processRepository_root_eq (p : String) (g : RepoGit) (gsub : String → RepoGit)
    (api : String → ApiResult) (rawOut : String)
    (hraw : g.raw ["submodule", "status"] = Except.ok rawOut) :
    processRepository p false g gsub api =
      ((processSubmodule p g api).1,
        Event.raw p ["submodule", "status"] ::
          ((parseSubmoduleStatus rawOut).flatMap (fun sp => refreshSubmodule p sp gsub) ++
            (processSubmodule p g api).2)) := by
  unfold processRepository processSubmodule
  rw [hraw]
  cases hs : g.status with
  | error e => simp [hs]
  | ok b =>
    cases b with
    | true => simp [hs]
    | false =>
      cases hd : g.diff with
      | error e => simp [hs, hd]
      | ok d =>
        cases hsum : g.diffSummary with
        | error e => simp [hs, hd, hsum]
        | ok s =>
          cases hadd : g.add "." with
          | error e => simp [hs, hd, hsum, hadd]
          | ok u =>
            cases hc : g.commit (generateCommitMessage api d).1 with
            | error e => simp [hs, hd, hsum, hadd, hc]
            | ok u2 =>
              cases hp : g.push "origin" "main" with
              | error e => simp [hs, hd, hsum, hadd, hc, hp]
              | ok u3 => simp [hs, hd, hsum, hadd, hc, hp]

/-- The pipeline trace always begins with the status query. -/
lemma processSubmodule_trace_head (p : String) (g : RepoGit)
    (api : String → ApiResult) :
    ((processSubmodule p g api).2).head? = some (Event.status p) := by
  unfold processSubmodule
  cases hs : g.status with
  | error e => rfl
  | ok b =>
    cases b with
    | true => rfl
    | false =>
      cases hd : g.diff with
      | error e => rfl
      | ok d =>
        cases hsum : g.diffSummary with
        | error e => rfl
        | ok s =>
          cases hadd : g.add "." with
          | error e => rfl
          | ok u =>
            cases hc : g.commit (generateCommitMessage api d).1 with
            | error e => simp [hc]
            | ok u2 =>
              cases hp : g.push "origin" "main" with
              | error e => simp [hc, hp]
              | ok u3 => simp [hc, hp]

end Ayay

namespace Ayay

/-- Claim C2: whenever the text-generation call fails (network failure,
non-2xx status, or a malformed/empty response body), the generated commit
message is exactly `"chore: update submodule changes"`; the error is never
raised to the caller (the function is total and still performs only its
single fetch). -/
theorem generation_failure_fallback (api : String → ApiResult) (d : String)
    (h : apiCallFailed (api d)) :
    (generateCommitMessage api d).1 = "chore: update submodule changes" := by
  unfold generateCommitMessage
  cases ha : api d with
  | networkError m => simp [fallbackMessage]
  | response code body =>
    rw [ha] at h
    unfold apiCallFailed at h
    rcases h with h | h | h | h
    · simp [Nat.lt_iff_add_one_le.mp h, h, fallbackMessage]
    · simp [h, fallbackMessage]
    · subst h; simp [fallbackMessage]
    · subst h; simp [fallbackMessage]

/-- Witness for C2: each of the three failure modes on a concrete input
yields the fallback message. -/
theorem generation_failure_fallback_witness :
    (generateCommitMessage apiNet "d").1 = "chore: update submodule changes" ∧
    (generateCommitMessage apiBad "d").1 = "chore: update submodule changes" ∧
    (generateCommitMessage apiMal "d").1 = "chore: update submodule changes" :=
  ⟨generation_failure_fallback apiNet "d" trivial,
   generation_failure_fallback apiBad "d" (by simp [apiCallFailed, apiBad]),
   generation_failure_fallback apiMal "d" (by simp [apiCallFailed, apiMal])⟩

/-- Claim C5: when the `packages` subdirectory is missing, the process
exits with code 1 and the event trace is empty, i.e. no version-control
operation was performed on any repository. -/
theorem missing_packages_fatal (w : World) (g : String → RepoGit)
    (api : String → ApiResult) (h : w.packagesExists = false) :
    main w g api = (1, []) := by
  simp [main, h]

/-- Witness for C5 on a concrete workspace without `packages`. -/
theorem missing_packages_fatal_witness :
    main wNoPkg gWorkspace apiW = (1, []) :=
  missing_packages_fatal wNoPkg gWorkspace apiW rfl

/-- Claim C3: the trace of a run decomposes as the concatenation of all
nested repositories' traces (in discovery order, whatever their outcomes)
followed by the root repository's trace, so the root's processing starts
only after every nested repository's task has finished and no root
operation is interleaved with a nested commit/push flow. -/
theorem root_after_submodules (w : World) (g : String → RepoGit)
    (api : String → ApiResult) (hpk : w.packagesExists = true) :
    (main w g api).2 =
      ((mainSubmodules w).map (fun p => (processSubmodule p (g p) api).2)).flatten ++
        (processRepository w.cwd false (g w.cwd) g api).2 := by
  simp [main, hpk]

/-- Witness for C3 on the three-repository workspace. -/
theorem root_after_submodules_witness :
    (main wThree gWorkspace apiW).2 =
      ((mainSubmodules wThree).map
          (fun p => (processSubmodule p (gWorkspace p) apiW).2)).flatten ++
        (processRepository wThree.cwd false (gWorkspace wThree.cwd) gWorkspace apiW).2 :=
  root_after_submodules wThree gWorkspace apiW rfl

/-- Claim C10: `processRepository` invoked with `isSubmodule = true` is
extensionally equal to `processSubmodule`: same outcome and same operation
trace for every repository location and oracle behaviour. -/
theorem processRepository_submodule_equiv (p : String) (g : RepoGit)
    (gsub : String → RepoGit) (api : String → ApiResult) :
    processRepository p true g gsub api = processSubmodule p g api := by
  unfold processRepository processSubmodule
  cases hs : g.status with
  | error e => simp [hs]
  | ok b =>
    cases b with
    | true => simp [hs]
    | false =>
      cases hd : g.diff with
      | error e => simp [hs, hd]
      | ok d =>
        cases hsum : g.diffSummary with
        | error e => simp [hs, hd, hsum]
        | ok s =>
          cases hadd : g.add "." with
          | error e => simp [hs, hd, hsum, hadd]
          | ok u =>
            cases hc : g.commit (generateCommitMessage api d).1 with
            | error e => simp [hs, hd, hsum, hadd, hc]
            | ok u2 =>
              cases hp : g.push "origin" "main" with
              | error e => simp [hs, hd, hsum, hadd, hc, hp]
              | ok u3 => simp [hs, hd, hsum, hadd, hc, hp]

/-- Claim C4: on a repository whose status reports clean, the flow stops
right after the status query: `processSubmodule` (and the identical
`isSubmodule` pipeline) returns the skipped outcome with the status query
as its only event, and even for the root repository no diff, staging,
message-generation fetch, commit, or push is ever performed.  Applied to a
second invocation whose status is clean, this is the idempotence claim. -/
theorem clean_skip_no_effects (p : String) (g : RepoGit) (gsub : String → RepoGit)
    (api : String → ApiResult) (h : g.status = Except.ok true) :
    processSubmodule p g api = (.skippedClean, [Event.status p]) ∧
    processRepository p true g gsub api = (.skippedClean, [Event.status p]) ∧
    (∀ rawOut, g.raw ["submodule", "status"] = Except.ok rawOut →
      (processRepository p false g gsub api).1 = .skippedClean ∧
      ∀ e ∈ (processRepository p false g gsub api).2, pipelineEffect e = false) := by
  have hsub : processSubmodule p g api = (.skippedClean, [Event.status p]) := by
    simp [processSubmodule, h]
  refine ⟨hsub, by simp [processRepository, h], ?_⟩
  intro rawOut hraw
  rw [processRepository_root_eq p g gsub api rawOut hraw]
  refine ⟨by simp [hsub], ?_⟩
  intro e he
  simp [hsub] at he
  rcases he with he | he | he
  · subst he; rfl
  · rcases he with ⟨sp, _, hin⟩
    exact refreshSubmodule_effects p sp gsub e hin
  · subst he; rfl

/-- Witness for C4 on a concrete clean repository. -/
theorem clean_skip_no_effects_witness :
    processSubmodule "/r/packages/a" gClean apiW =
      (.skippedClean, [Event.status "/r/packages/a"]) ∧
    (processRepository "/r" false gClean gWorkspace apiW).1 = .skippedClean :=
  ⟨(clean_skip_no_effects "/r/packages/a" gClean gWorkspace apiW rfl).1,
   ((clean_skip_no_effects "/r" gClean gWorkspace apiW rfl).2.2
      " abc123 packages/a (heads/main)\n abc124 packages/b (heads/main)" rfl).1⟩

/-- Claim C6: with the earlier pipeline steps succeeding on a dirty tree,
a commit failure reaches the enclosing per-repository handler: the outcome
is failed and the trace ends at the commit event, so no push is attempted
after a failed commit; a push failure is caught by the same handler,
giving a failed outcome whose trace shows the commit already performed
(committed locally but unpushed).  Both hold for `processSubmodule` and
for the identical `processRepository` pipeline. -/
theorem commit_reraise_push_caught (p : String) (g : RepoGit) (gsub : String → RepoGit)
    (api : String → ApiResult) (d : String) (s : DiffSummary)
    (hst : g.status = Except.ok false) (hd : g.diff = Except.ok d)
    (hsum : g.diffSummary = Except.ok s) (hadd : g.add "." = Except.ok ()) :
    (∀ e, g.commit (generateCommitMessage api d).1 = Except.error e →
      processSubmodule p g api =
        (.failed e, [Event.status p, Event.diff p, Event.diffSummary p, Event.add p ".",
          Event.fetch d, Event.commit p (generateCommitMessage api d).1]) ∧
      processRepository p true g gsub api =
        (.failed e, [Event.status p, Event.diff p, Event.diffSummary p, Event.add p ".",
          Event.fetch d, Event.commit p (generateCommitMessage api d).1])) ∧
    (∀ e, g.commit (generateCommitMessage api d).1 = Except.ok () →
      g.push "origin" "main" = Except.error e →
      processSubmodule p g api =
        (.failed e, [Event.status p, Event.diff p, Event.diffSummary p, Event.add p ".",
          Event.fetch d, Event.commit p (generateCommitMessage api d).1,
          Event.push p "origin" "main"]) ∧
      processRepository p true g gsub api =
        (.failed e, [Event.status p, Event.diff p, Event.diffSummary p, Event.add p ".",
          Event.fetch d, Event.commit p (generateCommitMessage api d).1,
          Event.push p "origin" "main"])) := by
  constructor
  · intro e hce
    constructor
    · simp [processSubmodule, hst, hd, hsum, hadd, hce, generateCommitMessage_events]
    · simp [processRepository, hst, hd, hsum, hadd, hce, generateCommitMessage_events]
  · intro e hcok hpe
    constructor
    · simp [processSubmodule, hst, hd, hsum, hadd, hcok, hpe, generateCommitMessage_events]
    · simp [processRepository, hst, hd, hsum, hadd, hcok, hpe, generateCommitMessage_events]

/-- Witness for C6: a throwing commit gives a failed outcome with no push
event; a throwing push gives a failed outcome with the commit already in
the trace. -/
theorem commit_reraise_push_caught_witness :
    processSubmodule "/r/packages/b" gBadCommit apiW =
      (.failed "commit boom", [Event.status "/r/packages/b", Event.diff "/r/packages/b",
        Event.diffSummary "/r/packages/b", Event.add "/r/packages/b" ".",
        Event.fetch "diff-a", Event.commit "/r/packages/b" "feat: update config"]) ∧
    processSubmodule "/r/packages/c" gBadPush apiW =
      (.failed "push boom", [Event.status "/r/packages/c", Event.diff "/r/packages/c",
        Event.diffSummary "/r/packages/c", Event.add "/r/packages/c" ".",
        Event.fetch "diff-a", Event.commit "/r/packages/c" "feat: update config",
        Event.push "/r/packages/c" "origin" "main"]) := by
  have hmsg : (generateCommitMessage apiW "diff-a").1 = "feat: update config" := by decide
  have h1 := (commit_reraise_push_caught "/r/packages/b" gBadCommit gWorkspace apiW
      "diff-a" ⟨[⟨"f.txt", 1, 0⟩]⟩ rfl rfl rfl rfl).1 "commit boom" (by rw [hmsg]; rfl)
  have h2 := (commit_reraise_push_caught "/r/packages/c" gBadPush gWorkspace apiW
      "diff-a" ⟨[⟨"f.txt", 1, 0⟩]⟩ rfl rfl rfl rfl).2 "push boom" (by rw [hmsg]; rfl) rfl
  rw [hmsg] at h1 h2
  exact ⟨h1.1, h2.1⟩

/-- Claim C8: on a successful 2xx response whose body carries a list of
content segments, the commit message is the whitespace-trimmed text of the
first segment, and the pipeline commits with exactly that message and then
pushes to remote `origin` branch `main`. -/
theorem generated_message_commit_push (p : String) (g : RepoGit)
    (api : String → ApiResult) (d : String) (s : DiffSummary) (t : String)
    (segs : List String) (code : Nat)
    (hst : g.status = Except.ok false) (hd : g.diff = Except.ok d)
    (hsum : g.diffSummary = Except.ok s) (hadd : g.add "." = Except.ok ())
    (hapi : api d = ApiResult.response code (Body.content (t :: segs)))
    (hlo : 200 ≤ code) (hhi : code ≤ 299)
    (hc : g.commit (jsTrim t) = Except.ok ())
    (hp : g.push "origin" "main" = Except.ok ()) :
    (generateCommitMessage api d).1 = jsTrim t ∧
    processSubmodule p g api =
      (.success, [Event.status p, Event.diff p, Event.diffSummary p, Event.add p ".",
        Event.fetch d, Event.commit p (jsTrim t),
        Event.push p "origin" "main"]) := by
  have hmsg : (generateCommitMessage api d).1 = jsTrim t := by
    simp [generateCommitMessage, hapi, Nat.not_lt.mpr hlo, Nat.not_lt.mpr hhi]
  refine ⟨hmsg, ?_⟩
  have heq := processSubmodule_allOk_eq p g api d s hst hd hsum hadd
    (by rw [hmsg]; exact hc) hp
  rw [heq, hmsg]

/-- Witness for C8: the example scenario with response body
`{"content":[{"text":"feat: update config"}]}`. -/
theorem generated_message_commit_push_witness :
    (generateCommitMessage apiW "diff-a").1 = "feat: update config" ∧
    processSubmodule "/r/packages/a" gGood apiW =
      (.success, [Event.status "/r/packages/a", Event.diff "/r/packages/a",
        Event.diffSummary "/r/packages/a", Event.add "/r/packages/a" ".",
        Event.fetch "diff-a", Event.commit "/r/packages/a" "feat: update config",
        Event.push "/r/packages/a" "origin" "main"]) := by
  have h := generated_message_commit_push "/r/packages/a" gGood apiW "diff-a"
    ⟨[⟨"f.txt", 1, 0⟩]⟩ "feat: update config" [] 200 rfl rfl rfl rfl rfl
    (by norm_num) (by norm_num) rfl rfl
  have htr : jsTrim "feat: update config" = "feat: update config" := by decide
  rw [htr] at h
  exact h

/-- Claim C1: no exception escapes `processSubmodule`: a step that throws
is converted into a logged failed outcome, the per-repository result is
always one of skipped/success/failed, and in a full run every nested
repository whose own operations succeed still gets its commit and push
even though sibling repositories may fail arbitrarily; the process exit
code is 0. -/
theorem commit_failure_isolation (w : World) (g : String → RepoGit)
    (api : String → ApiResult) (hpk : w.packagesExists = true) :
    (main w g api).1 = 0 ∧
    (∀ p gp e, RepoGit.status gp = Except.error e →
        processSubmodule p gp api = (.failed e, [Event.status p])) ∧
    (∀ p gp, (processSubmodule p gp api).1 = .skippedClean ∨
        (processSubmodule p gp api).1 = .success ∨
        ∃ e, (processSubmodule p gp api).1 = .failed e) ∧
    (∀ q, q ∈ mainSubmodules w → repoAllOk (g q) →
        ∃ m, Event.commit q m ∈ (main w g api).2 ∧
          Event.push q "origin" "main" ∈ (main w g api).2) := by
  have hmain : (main w g api).2 =
      ((mainSubmodules w).map (fun p => (processSubmodule p (g p) api).2)).flatten ++
        (processRepository w.cwd false (g w.cwd) g api).2 := by
    simp [main, hpk]
  refine ⟨by simp [main, hpk], ?_, ?_, ?_⟩
  · intro p gp e he
    simp [processSubmodule, he]
  · intro p gp
    cases h : (processSubmodule p gp api).1 with
    | skippedClean => exact Or.inl rfl
    | success => exact Or.inr (Or.inl rfl)
    | failed e => exact Or.inr (Or.inr ⟨e, rfl⟩)
  · intro q hq hok
    obtain ⟨hst, ⟨d, hd⟩, ⟨s, hsum⟩, hadd, hcommit, hpush⟩ := hok
    have heq := processSubmodule_allOk_eq q (g q) api d s hst hd hsum hadd
      (hcommit _) hpush
    refine ⟨(generateCommitMessage api d).1, ?_, ?_⟩ <;>
      rw [hmain] <;>
      refine List.mem_append_left _ (List.mem_flatten.mpr
        ⟨(processSubmodule q (g q) api).2, List.mem_map_of_mem _ hq, ?_⟩) <;>
      rw [heq] <;> simp

/-- Witness for C1: three nested repositories where the commit of `b`
throws; `a` and `c` still commit and push, and the exit code is 0. -/
theorem commit_failure_isolation_witness :
    (main wThree gWorkspace apiW).1 = 0 ∧
    (∃ m, Event.commit "/r/packages/a" m ∈ (main wThree gWorkspace apiW).2 ∧
        Event.push "/r/packages/a" "origin" "main" ∈ (main wThree gWorkspace apiW).2) ∧
    (∃ m, Event.commit "/r/packages/c" m ∈ (main wThree gWorkspace apiW).2 ∧
        Event.push "/r/packages/c" "origin" "main" ∈ (main wThree gWorkspace apiW).2) ∧
    (processSubmodule "/r/packages/b" gBadCommit apiW).1 =
      Outcome.failed "commit boom" := by
  have h := commit_failure_isolation wThree gWorkspace apiW rfl
  have hallOk : repoAllOk gGood :=
    ⟨rfl, ⟨"diff-a", rfl⟩, ⟨⟨[⟨"f.txt", 1, 0⟩]⟩, rfl⟩, rfl, fun m => rfl, rfl⟩
  have ha := h.2.2.2 "/r/packages/a" (by decide) hallOk
  have hc := h.2.2.2 "/r/packages/c" (by decide) hallOk
  exact ⟨h.1, ha, hc, by decide⟩

/-- Claim C7: when the root's submodule-status query succeeds, the root
trace is the raw query, then for every registered nested path the checkout
of `main` (followed, when the checkout succeeded, by the pull from
`origin/main`), and only then the root's own pipeline beginning with the
root status query; every nested path's refresh is attempted regardless of
the other paths' or its own failures, and the root's flow continues after
them. -/
theorem root_refresh_before_status (p : String) (g : RepoGit)
    (gsub : String → RepoGit) (api : String → ApiResult) (rawOut : String)
    (hraw : g.raw ["submodule", "status"] = Except.ok rawOut) :
    (processRepository p false g gsub api).2 =
      Event.raw p ["submodule", "status"] ::
        ((parseSubmoduleStatus rawOut).flatMap (fun sp => refreshSubmodule p sp gsub) ++
          (processSubmodule p g api).2) ∧
    ((processSubmodule p g api).2).head? = some (Event.status p) ∧
    (∀ sp ∈ parseSubmoduleStatus rawOut,
        Event.checkout (pathJoin p sp) "main" ∈ (processRepository p false g gsub api).2) ∧
    (∀ sp ∈ parseSubmoduleStatus rawOut,
        (gsub (pathJoin p sp)).checkout "main" = Except.ok () →
        Event.pull (pathJoin p sp) "origin" "main" ∈
          (processRepository p false g gsub api).2) := by
  have htrace : (processRepository p false g gsub api).2 =
      Event.raw p ["submodule", "status"] ::
        ((parseSubmoduleStatus rawOut).flatMap (fun sp => refreshSubmodule p sp gsub) ++
          (processSubmodule p g api).2) := by
    rw [processRepository_root_eq p g gsub api rawOut hraw]
  refine ⟨htrace, processSubmodule_trace_head p g api, ?_, ?_⟩
  · intro sp hsp
    rw [htrace]
    exact List.mem_cons_of_mem _ (List.mem_append_left _
      (List.mem_flatMap.mpr ⟨sp, hsp, checkout_mem_refreshSubmodule p sp gsub⟩))
  · intro sp hsp hco
    rw [htrace]
    exact List.mem_cons_of_mem _ (List.mem_append_left _
      (List.mem_flatMap.mpr ⟨sp, hsp, pull_mem_refreshSubmodule p sp gsub hco⟩))

/-- Witness for C7: a root with two registered nested paths, the checkout
of `packages/b` throwing; both checkouts are attempted and the healthy
path is pulled. -/
theorem root_refresh_before_status_witness :
    Event.checkout "/r/packages/a" "main" ∈
      (processRepository "/r" false gGood gsubW apiW).2 ∧
    Event.checkout "/r/packages/b" "main" ∈
      (processRepository "/r" false gGood gsubW apiW).2 ∧
    Event.pull "/r/packages/a" "origin" "main" ∈
      (processRepository "/r" false gGood gsubW apiW).2 := by
  have h := root_refresh_before_status "/r" gGood gsubW apiW
    " abc123 packages/a (heads/main)\n abc124 packages/b (heads/main)" rfl
  have hja : pathJoin "/r" "packages/a" = "/r/packages/a" := by decide
  have hjb : pathJoin "/r" "packages/b" = "/r/packages/b" := by decide
  refine ⟨?_, ?_, ?_⟩
  · have := h.2.2.1 "packages/a" (by decide)
    rwa [hja] at this
  · have := h.2.2.1 "packages/b" (by decide)
    rwa [hjb] at this
  · have := h.2.2.2 "packages/a" (by decide) rfl
    rwa [hja] at this

/-- Counterexample to C9: a successful (status 200) response whose only
content segment is whitespace trims to the empty string, and that empty
string is exactly what is handed to the commit operation. -/
theorem empty_message_counterexample :
    (generateCommitMessage apiBlank "diff-a").1 = "" ∧
    Event.commit "/r/packages/a" "" ∈
      (processSubmodule "/r/packages/a" gGood apiBlank).2 := by
  constructor <;> decide

/-- Claim C9 (amended): the commit message handed to the commit operation
is either the fixed non-empty fallback or the whitespace-trimmed first
segment of a successful 2xx response, passed through with no
non-emptiness validation, so a whitespace-only or empty segment yields
the empty string. -/
theorem message_fallback_or_trimmed (api : String → ApiResult) (d : String) :
    (generateCommitMessage api d).1 = "chore: update submodule changes" ∨
    ∃ code t segs, api d = ApiResult.response code (Body.content (t :: segs)) ∧
      200 ≤ code ∧ code ≤ 299 ∧ (generateCommitMessage api d).1 = jsTrim t := by
  unfold generateCommitMessage
  cases ha : api d with
  | networkError m => exact Or.inl rfl
  | response code body =>
    by_cases h1 : code < 200
    · left; simp [h1, fallbackMessage]
    · by_cases h2 : 299 < code
      · left; simp [h1, h2, fallbackMessage]
      · cases body with
        | malformed => left; simp [h1, h2, fallbackMessage]
        | content segs =>
          cases segs with
          | nil => left; simp [h1, h2, fallbackMessage]
          | cons t rest =>
            right
            exact ⟨code, t, rest, rfl, Nat.not_lt.mp h1, Nat.not_lt.mp h2,
              by simp [h1, h2]⟩

end Ayay
